import Mathlib

/-!
Verification of the `voxel_engine` modding API against its specification.

The definitions below are a shallow embedding of the Rust sources:

* `voxel_engine_types/src/math/direction.rs` — `Direction`, `Axis`, `Octant`,
  `DirectionFlags`;
* `voxel_engine_types/src/math/mod.rs` — `WorldCoord` / `WorldVec` fixed-point
  coordinates (an `i32` is modelled as an `Int` together with explicit wrapping
  by `2^32` where the Rust operation wraps);
* `src/wasi.rs` — the WASI shim (`fd_write` line buffering and the trapping
  stubs; byte buffers are modelled as `List Nat`);
* `voxel_engine_macros/src/lib.rs` — the asset encoder.

Floating-point values appear only in `displacement`; it is modelled over `ℚ`,
which agrees with IEEE `f32` on every input considered here because all the
intermediate values involved are exactly representable.
-/

/-! ## Direction, Axis, Octant (math/direction.rs) -/

/-- Rust enum `Direction` with discriminants 0..5. -/
inductive Direction where
  | LEFT
  | RIGHT
  | DOWN
  | UP
  | BACK
  | FRONT
deriving DecidableEq, Repr

/-- Numeric representation of a `Direction` (`self as u8`). -/
def Direction.toBits : Direction → Nat
  | .LEFT => 0
  | .RIGHT => 1
  | .DOWN => 2
  | .UP => 3
  | .BACK => 4
  | .FRONT => 5

/-- Inverse of `Direction.toBits` on the legal range (`Direction::from_raw`). -/
def Direction.ofBits (i : Fin 6) : Direction :=
  [Direction.LEFT, Direction.RIGHT, Direction.DOWN,
   Direction.UP, Direction.BACK, Direction.FRONT].get i

/-- Rust `Direction::reverse`: `from_raw((self as u8) ^ 1)`. -/
def Direction.reverse (d : Direction) : Direction :=
  Direction.ofBits ⟨d.toBits ^^^ 1, by cases d <;> decide⟩

/-- Rust enum `Axis` with discriminants 0..2. -/
inductive Axis where
  | X
  | Y
  | Z
deriving DecidableEq, Repr

/-- Numeric representation of an `Axis` (`self as u8`). -/
def Axis.toBits : Axis → Nat
  | .X => 0
  | .Y => 1
  | .Z => 2

/-- Inverse of `Axis.toBits` on the legal range (`Axis::from_raw`). -/
def Axis.ofBits (i : Fin 3) : Axis :=
  [Axis.X, Axis.Y, Axis.Z].get i

/-- Rust `Axis::from_direction`: `transmute((value as u8) >> 1)`. -/
def Axis.from_direction (value : Direction) : Axis :=
  Axis.ofBits ⟨value.toBits >>> 1, by cases value <;> decide⟩

/-- Rust enum `Octant` with discriminants 0..7. -/
inductive Octant where
  | Z0Y0X0
  | Z0Y0X1
  | Z0Y1X0
  | Z0Y1X1
  | Z1Y0X0
  | Z1Y0X1
  | Z1Y1X0
  | Z1Y1X1
deriving DecidableEq, Repr

/-- Numeric representation of an `Octant` (`self as u8`). -/
def Octant.toBits : Octant → Nat
  | .Z0Y0X0 => 0
  | .Z0Y0X1 => 1
  | .Z0Y1X0 => 2
  | .Z0Y1X1 => 3
  | .Z1Y0X0 => 4
  | .Z1Y0X1 => 5
  | .Z1Y1X0 => 6
  | .Z1Y1X1 => 7

/-- Inverse of `Octant.toBits` on the legal range (`Octant::from_raw`). -/
def Octant.ofBits (i : Fin 8) : Octant :=
  [Octant.Z0Y0X0, Octant.Z0Y0X1, Octant.Z0Y1X0, Octant.Z0Y1X1,
   Octant.Z1Y0X0, Octant.Z1Y0X1, Octant.Z1Y1X0, Octant.Z1Y1X1].get i

/-- Rust `Octant::flip`: `from_raw((self as u8) ^ (1 << (axis as u8)))`. -/
def Octant.flip (o : Octant) (axis : Axis) : Octant :=
  Octant.ofBits ⟨o.toBits ^^^ (1 <<< axis.toBits), by cases o <;> cases axis <;> decide⟩

/-- C7: for every `Direction` value `d`, `d.reverse().reverse() == d`. -/
theorem direction_reverse_involution (d : Direction) : d.reverse.reverse = d := by
  cases d <;> rfl

/-- C8: for every `Octant` value `o` and `Axis` value `a`, `o.flip(a).flip(a) == o`. -/
theorem octant_flip_involution (o : Octant) (a : Axis) : (o.flip a).flip a = o := by
  cases o <;> cases a <;> rfl

/-- C4 counterexample: at `d = Direction::DOWN` the value of `Axis::from_direction(d)`
is `Axis::Y` (numeric value 1), which differs from `(d as u8) >> 2 = 0`; so
`from_direction` is not a right shift by 2 bits. -/
theorem axis_from_direction_not_shr_two :
    ¬ (Axis.from_direction Direction.DOWN).toBits = Direction.DOWN.toBits >>> 2 := by
  decide

/-- C4 amended: for every `Direction` value `d`, `Axis::from_direction(d)` is a pure
function of `d` whose numeric value equals the numeric value of `d` shifted right
by 1 bit: `Axis::from_direction(d) as u8 == (d as u8) >> 1`. -/
theorem axis_from_direction_shr_one (d : Direction) :
    (Axis.from_direction d).toBits = d.toBits >>> 1 := by
  cases d <;> rfl

/-! ## DirectionFlags (math/direction.rs) -/

/-- Rust `From<Direction> for DirectionFlags`: `DirectionFlags(1 << (x as u8))`.
The `u8` payload of a `DirectionFlags` is modelled as a `Nat`. -/
def DirectionFlags.of_direction (d : Direction) : Nat := 1 <<< d.toBits

/-- Rust constant `DirectionFlags::NONE`. -/
def DirectionFlags.NONE : Nat := 0

/-- Rust constant `DirectionFlags::LEFT`. -/
def DirectionFlags.LEFT : Nat := 1 <<< Direction.LEFT.toBits

/-- Rust constant `DirectionFlags::RIGHT`. -/
def DirectionFlags.RIGHT : Nat := 1 <<< Direction.RIGHT.toBits

/-- Rust constant `DirectionFlags::DOWN`. -/
def DirectionFlags.DOWN : Nat := 1 <<< Direction.DOWN.toBits

/-- Rust constant `DirectionFlags::UP`. -/
def DirectionFlags.UP : Nat := 1 <<< Direction.UP.toBits

/-- Rust constant `DirectionFlags::BACK`. -/
def DirectionFlags.BACK : Nat := 1 <<< Direction.BACK.toBits

/-- Rust constant `DirectionFlags::FRONT`. -/
def DirectionFlags.FRONT : Nat := 1 <<< Direction.FRONT.toBits

/-- Rust constant `DirectionFlags::ALL`. -/
def DirectionFlags.ALL : Nat :=
  DirectionFlags.LEFT ||| DirectionFlags.RIGHT ||| DirectionFlags.DOWN |||
  DirectionFlags.UP ||| DirectionFlags.BACK ||| DirectionFlags.FRONT

/-- Rust `DirectionFlags::from_bits_truncate`: `Self(bits & Self::ALL.0)`. -/
def DirectionFlags.from_bits_truncate (bits : Nat) : Nat :=
  bits &&& DirectionFlags.ALL

/-- Rust `DirectionFlags::from_octant`. -/
def DirectionFlags.from_octant (a : Octant) : Nat :=
  match a with
  | .Z0Y0X0 => DirectionFlags.LEFT ||| DirectionFlags.DOWN ||| DirectionFlags.BACK
  | .Z0Y0X1 => DirectionFlags.RIGHT ||| DirectionFlags.DOWN ||| DirectionFlags.BACK
  | .Z0Y1X0 => DirectionFlags.LEFT ||| DirectionFlags.UP ||| DirectionFlags.BACK
  | .Z0Y1X1 => DirectionFlags.RIGHT ||| DirectionFlags.UP ||| DirectionFlags.BACK
  | .Z1Y0X0 => DirectionFlags.LEFT ||| DirectionFlags.DOWN ||| DirectionFlags.FRONT
  | .Z1Y0X1 => DirectionFlags.RIGHT ||| DirectionFlags.DOWN ||| DirectionFlags.FRONT
  | .Z1Y1X0 => DirectionFlags.LEFT ||| DirectionFlags.UP ||| DirectionFlags.FRONT
  | .Z1Y1X1 => DirectionFlags.RIGHT ||| DirectionFlags.UP ||| DirectionFlags.FRONT

/-- Rust `DirectionFlags::from_negative_positive_masks`. The two arguments are
`u8` values, so they are reduced mod 256 and the intermediate `positives << 3`
keeps only its low eight bits, exactly as the `u8` shift does. -/
def DirectionFlags.from_negative_positive_masks (negatives positives : Nat) : Nat :=
  let x := (negatives % 256) ||| (((positives % 256) <<< 3) % 256)
  DirectionFlags.from_bits_truncate
    ((x &&& 0x21) ||| ((x &&& 0x02) <<< 1) ||| ((x &&& 0x04) <<< 2) |||
     ((x &&& 0x08) >>> 2) ||| ((x &&& 0x10) >>> 1))

/-- Rust `impl Not for DirectionFlags`: `Self::from_bits_truncate(!self.0)`;
on a `u8` payload `!x` is `x ^ 0xFF`. -/
def DirectionFlags.not (x : Nat) : Nat :=
  DirectionFlags.from_bits_truncate ((x % 256) ^^^ 0xFF)

/-- The `DirectionFlags` values obtainable through the public API: the named
constants, the public constructors, and closure under `|`, `&` and `!`
(`DirectionFlags` has no public unchecked `from_bits`). -/
inductive DirectionFlags.Reachable : Nat → Prop where
  | noneFlags : DirectionFlags.Reachable DirectionFlags.NONE
  | allFlags : DirectionFlags.Reachable DirectionFlags.ALL
  | ofDirection (d : Direction) : DirectionFlags.Reachable (DirectionFlags.of_direction d)
  | ofOctant (o : Octant) : DirectionFlags.Reachable (DirectionFlags.from_octant o)
  | ofBitsTruncate (b : Nat) : DirectionFlags.Reachable (DirectionFlags.from_bits_truncate b)
  | ofMasks (n p : Nat) :
      DirectionFlags.Reachable (DirectionFlags.from_negative_positive_masks n p)
  | bitor {a b : Nat} (ha : DirectionFlags.Reachable a) (hb : DirectionFlags.Reachable b) :
      DirectionFlags.Reachable (a ||| b)
  | bitand {a b : Nat} (ha : DirectionFlags.Reachable a) (hb : DirectionFlags.Reachable b) :
      DirectionFlags.Reachable (a &&& b)
  | bitnot {a : Nat} (ha : DirectionFlags.Reachable a) :
      DirectionFlags.Reachable (DirectionFlags.not a)

/-- Truncation bounds the payload by the six-bit mask. -/
theorem DirectionFlags.from_bits_truncate_lt (b : Nat) :
    DirectionFlags.from_bits_truncate b < 2 ^ 6 :=
  lt_of_le_of_lt Nat.and_le_right (by decide)

/-- Every reachable `DirectionFlags` payload is below `2^6`. -/
theorem DirectionFlags.reachable_lt {x : Nat} (h : DirectionFlags.Reachable x) : x < 2 ^ 6 := by
  induction h with
  | noneFlags => decide
  | allFlags => decide
  | ofDirection d => cases d <;> decide
  | ofOctant o => cases o <;> decide
  | ofBitsTruncate b => exact DirectionFlags.from_bits_truncate_lt b
  | ofMasks n p => exact DirectionFlags.from_bits_truncate_lt _
  | bitor ha hb iha ihb => exact Nat.or_lt_two_pow iha ihb
  | bitand ha hb iha ihb => exact lt_of_le_of_lt Nat.and_le_left iha
  | bitnot ha iha => exact DirectionFlags.from_bits_truncate_lt _

/-- C6: every `DirectionFlags` value obtainable through the public API stays in
the legal six-bit range: `bits() & !DirectionFlags::ALL.bits() == 0`, where
`!ALL.bits()` is the `u8` complement `ALL ^ 0xFF = 0xC0`. -/
theorem directionFlags_reachable_in_range {x : Nat} (h : DirectionFlags.Reachable x) :
    x &&& (DirectionFlags.ALL ^^^ 0xFF) = 0 := by
  have hx : x < 2 ^ 6 := DirectionFlags.reachable_lt h
  apply Nat.eq_of_testBit_eq
  intro i
  rw [Nat.testBit_and, Nat.zero_testBit]
  by_cases hi : i < 6
  · have hm : (DirectionFlags.ALL ^^^ 0xFF).testBit i = false := by
      interval_cases i <;> decide
    simp [hm]
  · have hb : x.testBit i = false :=
      Nat.testBit_lt_two_pow
        (lt_of_lt_of_le hx (Nat.pow_le_pow_right (by norm_num) (not_lt.mp hi)))
    simp [hb]

/-- Witness for C6 at the concrete reachable value `DirectionFlags::ALL`. -/
theorem directionFlags_reachable_in_range_witness :
    DirectionFlags.Reachable DirectionFlags.ALL ∧
      DirectionFlags.ALL &&& (DirectionFlags.ALL ^^^ 0xFF) = 0 :=
  ⟨DirectionFlags.Reachable.allFlags,
   directionFlags_reachable_in_range DirectionFlags.Reachable.allFlags⟩

/-! ## WorldCoord and WorldVec (math/mod.rs) -/

/-- Interpretation of an `i32` result: reduce an `Int` into the two's-complement
range `[-2^31, 2^31)`, as a wrapping Rust `i32` operation does. -/
def wrap32 (x : Int) : Int := (x + 2 ^ 31) % 2 ^ 32 - 2 ^ 31

/-- Rust/glam `IVec3`: a triple of `i32` values, modelled as `Int` components. -/
structure IVec3 where
  x : Int
  y : Int
  z : Int
deriving DecidableEq, Repr

/-- Triple of exact rationals standing for a glam `Vec3A` whose components are
exactly representable `f32` values. -/
structure Vec3Q where
  x : ℚ
  y : ℚ
  z : ℚ
deriving DecidableEq, Repr

/-- Rust constant `WorldCoord::LOG2_UNITS_PER_VOXEL = 8`. A `WorldCoord` is a
`#[repr(transparent)]` wrapper around an `i32`, modelled here as the raw `Int`. -/
def WorldCoord.LOG2_UNITS_PER_VOXEL : Nat := 8

/-- Rust constant `WorldCoord::UNITS_PER_VOXEL = 1 << 8 = 256`. -/
def WorldCoord.UNITS_PER_VOXEL : Nat := 1 <<< WorldCoord.LOG2_UNITS_PER_VOXEL

/-- Rust `WorldCoord::from_voxel`: `Self(voxel << Self::LOG2_UNITS_PER_VOXEL)`.
The `i32` left shift discards bits shifted past bit 31, hence the wrap. -/
def WorldCoord.from_voxel (voxel : Int) : Int :=
  wrap32 (voxel * 2 ^ WorldCoord.LOG2_UNITS_PER_VOXEL)

/-- Rust `WorldCoord::voxel`: `self.0 >> Self::LOG2_UNITS_PER_VOXEL`; an `i32`
arithmetic right shift is floor division by the power of two. -/
def WorldCoord.voxel (c : Int) : Int :=
  Int.fdiv c (2 ^ WorldCoord.LOG2_UNITS_PER_VOXEL)

/-- Rust `WorldCoord::displacement` (exact-value model): `disp = self.0 - other.0`
on `i32`, then `(disp >> 8) as f32 + (disp & 255) as f32 / 256.0`. The cast of
`disp & 255` to the low byte is `disp.emod 256` and the arithmetic shift is floor
division; the `f32` sum is modelled by the exact rational sum. -/
def WorldCoord.displacement (c other : Int) : ℚ :=
  let disp := wrap32 (c - other)
  ((Int.fdiv disp (2 ^ WorldCoord.LOG2_UNITS_PER_VOXEL) : Int) : ℚ) +
    ((disp % (WorldCoord.UNITS_PER_VOXEL : Int) : Int) : ℚ) / (WorldCoord.UNITS_PER_VOXEL : ℚ)

/-- Rust `WorldVec::from_voxel`: componentwise `WorldCoord::from_voxel`
(`cast(voxel << WorldCoord::LOG2_UNITS_PER_VOXEL)` on the `IVec3` of bits). -/
def WorldVec.from_voxel (voxel : IVec3) : IVec3 :=
  ⟨WorldCoord.from_voxel voxel.x, WorldCoord.from_voxel voxel.y, WorldCoord.from_voxel voxel.z⟩

/-- Rust `WorldVec::voxel`: componentwise arithmetic right shift of the bits. -/
def WorldVec.voxel (w : IVec3) : IVec3 :=
  ⟨WorldCoord.voxel w.x, WorldCoord.voxel w.y, WorldCoord.voxel w.z⟩

/-- Rust `WorldVec::displacement`: componentwise `WorldCoord::displacement`
(the `IVec3` subtraction, shift and mask act componentwise). -/
def WorldVec.displacement (a other : IVec3) : Vec3Q :=
  ⟨WorldCoord.displacement a.x other.x,
   WorldCoord.displacement a.y other.y,
   WorldCoord.displacement a.z other.z⟩

/-- C1 counterexample: for the voxel coordinate `v = (2^23, 0, 0)` — a legal
`IVec3` of `i32` values — `WorldVec::from_voxel(v).voxel()` is `(-2^23, 0, 0)`,
not `v`: the `<< 8` in `from_voxel` overflows the `i32` and wraps. -/
theorem worldVec_voxel_roundtrip_fails :
    WorldVec.voxel (WorldVec.from_voxel ⟨8388608, 0, 0⟩) ≠ ⟨8388608, 0, 0⟩ := by
  decide

/-- Componentwise round trip for coordinates whose shifted value stays in `i32`. -/
theorem WorldCoord.voxel_from_voxel (c : Int) (h1 : -(2 ^ 23) ≤ c) (h2 : c < 2 ^ 23) :
    WorldCoord.voxel (WorldCoord.from_voxel c) = c := by
  unfold WorldCoord.voxel WorldCoord.from_voxel wrap32 WorldCoord.LOG2_UNITS_PER_VOXEL
  have hb1 : (0 : Int) ≤ c * 2 ^ 8 + 2 ^ 31 := by norm_num; linarith
  have hb2 : c * 2 ^ 8 + 2 ^ 31 < 2 ^ 32 := by norm_num; linarith
  rw [Int.emod_eq_of_lt hb1 hb2, add_sub_cancel_right]
  exact Int.mul_fdiv_cancel c (by norm_num)

/-- C1 amended: `voxel()` inverts `from_voxel()` on every voxel-aligned input
whose components lie in `[-2^23, 2^23)` (so that the internal `<< 8` does not
overflow the `i32` coordinate); outside that range the round trip fails. -/
theorem worldVec_voxel_from_voxel (v : IVec3)
    (hx : -(2 ^ 23) ≤ v.x ∧ v.x < 2 ^ 23)
    (hy : -(2 ^ 23) ≤ v.y ∧ v.y < 2 ^ 23)
    (hz : -(2 ^ 23) ≤ v.z ∧ v.z < 2 ^ 23) :
    WorldVec.voxel (WorldVec.from_voxel v) = v := by
  cases v with
  | mk a b c =>
    simp only [WorldVec.from_voxel, WorldVec.voxel, IVec3.mk.injEq]
    exact ⟨WorldCoord.voxel_from_voxel a hx.1 hx.2,
           WorldCoord.voxel_from_voxel b hy.1 hy.2,
           WorldCoord.voxel_from_voxel c hz.1 hz.2⟩

/-- Witness for the amended C1 at the concrete voxel coordinate `(5, -3, 0)`. -/
theorem worldVec_voxel_from_voxel_witness :
    WorldVec.voxel (WorldVec.from_voxel ⟨5, -3, 0⟩) = ⟨5, -3, 0⟩ :=
  worldVec_voxel_from_voxel ⟨5, -3, 0⟩
    ⟨by decide, by decide⟩ ⟨by decide, by decide⟩ ⟨by decide, by decide⟩

/-- The displacement of a coordinate from itself is exactly zero. -/
theorem WorldCoord.displacement_self (c : Int) : WorldCoord.displacement c c = 0 := by
  have h0 : wrap32 (c - c) = 0 := by rw [sub_self]; decide
  unfold WorldCoord.displacement
  rw [h0]
  simp [Int.zero_fdiv]

/-- C9: for every `WorldVec` value `p`, `p.displacement(p)` is the zero vector;
every step of the `f32` evaluation at this input is exact (`0 >> 8 = 0`,
`0 & 255 = 0`, `0.0 / 256.0 = 0.0`, `0.0 + 0.0 = 0.0`), so the rational model
coincides with the floating-point result. -/
theorem worldVec_displacement_self (p : IVec3) : WorldVec.displacement p p = ⟨0, 0, 0⟩ := by
  simp [WorldVec.displacement, WorldCoord.displacement_self]

/-! ## WASI shim (src/wasi.rs) -/

/-- Severity used by `global_log`: `fd == 1` logs at `Info`, `fd == 2` at `Error`. -/
inductive LogLevel where
  | Info
  | Error
deriving DecidableEq, Repr

/-- Outcome of a WASI shim call: either a returned value or an aborted
operation (`unimplemented!()` / `unreachable!()` panics and never returns). -/
inductive WasiOutcome (α : Type) where
  | ret (value : α)
  | trap
deriving DecidableEq, Repr

/-- Splitting of a byte stream at each newline byte, as the loop
`while let Some(last) = to_write.find(newline)` consumes it: the result lists
the segments before each newline followed by the trailing remainder (possibly
empty); a stream with no newline yields the single segment it is. -/
def splitNl : List Nat → List (List Nat)
  | [] => [[]]
  | b :: rest =>
    if b = 10 then [] :: splitNl rest
    else
      match splitNl rest with
      | [] => [[b]]
      | s :: ss => (b :: s) :: ss

/-- Body of the `fd_write` inner loop over the segments of one iovec, given the
persistent line buffer `cur`: every segment before a newline is logged (prefixed
by the buffer when the buffer is nonempty, which is then cleared), counting the
segment plus its newline into `nwritten`; the trailing remainder is appended to
the buffer and counted without being logged. Returns the new buffer, the bytes
counted and the logged lines. -/
def writeSegs : List (List Nat) → List Nat → List Nat × Nat × List (List Nat)
  | [], cur => (cur, 0, [])
  | [rest], cur => (cur ++ rest, rest.length, [])
  | seg :: s :: ss, cur =>
    ((writeSegs (s :: ss) []).1,
     seg.length + 1 + (writeSegs (s :: ss) []).2.1,
     (if cur.isEmpty then seg else cur ++ seg) :: (writeSegs (s :: ss) []).2.2)

/-- Processing of one iovec buffer by `fd_write`. -/
def writeChunk (towrite cur : List Nat) : List Nat × Nat × List (List Nat) :=
  writeSegs (splitNl towrite) cur

/-- The outer `while ciov_buf_len > 0` loop of `fd_write` over the iovec list,
threading the line buffer and accumulating `nwritten` and the logged lines. -/
def fdWriteGo : List (List Nat) → List Nat → List Nat × Nat × List (List Nat)
  | [], cur => (cur, 0, [])
  | chunk :: rest, cur =>
    ((fdWriteGo rest (writeChunk chunk cur).1).1,
     (writeChunk chunk cur).2.1 + (fdWriteGo rest (writeChunk chunk cur).1).2.1,
     (writeChunk chunk cur).2.2 ++ (fdWriteGo rest (writeChunk chunk cur).1).2.2)

/-- Observable result of a successful `fd_write` call: the returned status, the
new persistent line buffer, the value stored in `*nwritten`, and the lines
passed to `global_log` with their severity, in order. -/
structure FdWriteOutput where
  retval : Int
  buffer : List Nat
  nwritten : Nat
  logs : List (LogLevel × List Nat)
deriving DecidableEq, Repr

/-- Rust `fd_write` (src/wasi.rs): for `fd` 1 or 2 it first skips leading empty
iovecs, then processes each buffer through the newline-splitting loop; any other
descriptor hits `unreachable!()`. `buffer` is the prior contents of the static
`BUFFER` line buffer. -/
def fd_write (fd : Int) (iovs : List (List Nat)) (buffer : List Nat) :
    WasiOutcome FdWriteOutput :=
  if fd = 1 ∨ fd = 2 then
    .ret ⟨0,
          (fdWriteGo (iovs.dropWhile List.isEmpty) buffer).1,
          (fdWriteGo (iovs.dropWhile List.isEmpty) buffer).2.1,
          ((fdWriteGo (iovs.dropWhile List.isEmpty) buffer).2.2).map
            (fun l => (if fd = 1 then LogLevel.Info else LogLevel.Error, l))⟩
  else
    .trap

/-- Rust `args_get`: expanded from `impl_trap_for_funcs!`, body `unimplemented!()`. -/
def args_get (_argv _argv_buf : Int) : WasiOutcome Int := .trap

/-- Rust `args_sizes_get`: expanded from `impl_trap_for_funcs!`. -/
def args_sizes_get (_offset0 _offset1 : Int) : WasiOutcome Int := .trap

/-- Rust `clock_res_get`: expanded from `impl_trap_for_funcs!`. -/
def clock_res_get (_id _offset0 : Int) : WasiOutcome Int := .trap

/-- Rust `clock_time_get`: expanded from `impl_trap_for_funcs!`. -/
def clock_time_get (_id _precision _offset0 : Int) : WasiOutcome Int := .trap

/-- Rust `fd_close`: expanded from `impl_trap_for_funcs!`. -/
def fd_close (_fd : Int) : WasiOutcome Int := .trap

/-- Rust `fd_read`: expanded from `impl_trap_for_funcs!`. -/
def fd_read (_fd _iov_buf _iov_buf_len _offset1 : Int) : WasiOutcome Int := .trap

/-- Rust `fd_seek`: expanded from `impl_trap_for_funcs!`. -/
def fd_seek (_fd _offset _whence _offset0 : Int) : WasiOutcome Int := .trap

/-- Rust `path_open`: expanded from `impl_trap_for_funcs!`. -/
def path_open (_fd _dirflags _offset _length _oflags _fs_rights_base _fdflags
    _fs_rights_inheriting _offset0 : Int) : WasiOutcome Int := .trap

/-- Rust `path_unlink_file`: expanded from `impl_trap_for_funcs!`. -/
def path_unlink_file (_fd _offset _length : Int) : WasiOutcome Int := .trap

/-- Rust `poll_oneoff`: expanded from `impl_trap_for_funcs!`. -/
def poll_oneoff (_in _out _nsubscriptions _offset0 : Int) : WasiOutcome Int := .trap

/-- Rust `proc_exit`: body `unreachable!()`; declared without a return value. -/
def proc_exit (_rval : Int) : WasiOutcome Unit := .trap

/-- Rust `proc_raise`: expanded from `impl_trap_for_funcs!`. -/
def proc_raise (_sig : Int) : WasiOutcome Int := .trap

/-- Rust `sock_accept`: expanded from `impl_trap_for_funcs!`. -/
def sock_accept (_fd _flags _offset0 : Int) : WasiOutcome Int := .trap

/-- Rust `sock_recv`: expanded from `impl_trap_for_funcs!`. -/
def sock_recv (_fd _iov_buf _iov_buf_len _ri_flags _offset0 _offset1 : Int) :
    WasiOutcome Int := .trap

/-- Rust `sock_send`: expanded from `impl_trap_for_funcs!`. -/
def sock_send (_fd _ciov_buf _ciov_buf_len _si_flags _offset0 : Int) :
    WasiOutcome Int := .trap

/-- Rust `sock_shutdown`: expanded from `impl_trap_for_funcs!`. -/
def sock_shutdown (_fd _how : Int) : WasiOutcome Int := .trap

/-- C2: starting from an empty line buffer, writing the bytes of the string
made of `a b c`, newline, `d e f` on descriptor 1 logs exactly the line
`abc` at `Info` severity, returns 0, counts all 7 bytes and leaves `def` in
the buffer; a later call writing `g h i` and a newline logs exactly the line
`defghi`, returns 0, counts 4 bytes and empties the buffer. -/
theorem fd_write_buffers_partial_lines :
    fd_write 1 [[97, 98, 99, 10, 100, 101, 102]] [] =
      .ret ⟨0, [100, 101, 102], 7, [(LogLevel.Info, [97, 98, 99])]⟩ ∧
    fd_write 1 [[103, 104, 105, 10]] [100, 101, 102] =
      .ret ⟨0, [], 4, [(LogLevel.Info, [100, 101, 102, 103, 104, 105])]⟩ := by
  decide

/-- C3: each function of the unsupported WASI family aborts the operation for
all argument values and never returns a value to the caller. -/
theorem unsupported_wasi_traps :
    (∀ a b : Int, args_get a b = .trap) ∧
    (∀ a b : Int, args_sizes_get a b = .trap) ∧
    (∀ a b : Int, clock_res_get a b = .trap) ∧
    (∀ a b c : Int, clock_time_get a b c = .trap) ∧
    (∀ a : Int, fd_close a = .trap) ∧
    (∀ a b c d : Int, fd_read a b c d = .trap) ∧
    (∀ a b c d : Int, fd_seek a b c d = .trap) ∧
    (∀ a b c d e f g h i : Int, path_open a b c d e f g h i = .trap) ∧
    (∀ a b c : Int, path_unlink_file a b c = .trap) ∧
    (∀ a b c d : Int, poll_oneoff a b c d = .trap) ∧
    (∀ a : Int, proc_exit a = .trap) ∧
    (∀ a : Int, proc_raise a = .trap) ∧
    (∀ a b c : Int, sock_accept a b c = .trap) ∧
    (∀ a b c d e f : Int, sock_recv a b c d e f = .trap) ∧
    (∀ a b c d e : Int, sock_send a b c d e = .trap) ∧
    (∀ a b : Int, sock_shutdown a b = .trap) :=
  ⟨fun _ _ => rfl, fun _ _ => rfl, fun _ _ => rfl, fun _ _ _ => rfl, fun _ => rfl,
   fun _ _ _ _ => rfl, fun _ _ _ _ => rfl, fun _ _ _ _ _ _ _ _ _ => rfl, fun _ _ _ => rfl,
   fun _ _ _ _ => rfl, fun _ => rfl, fun _ => rfl, fun _ _ _ => rfl,
   fun _ _ _ _ _ _ => rfl, fun _ _ _ _ _ => rfl, fun _ _ => rfl⟩

/-- Splitting a byte stream on newlines always yields at least one segment. -/
theorem splitNl_ne_nil (l : List Nat) : splitNl l ≠ [] := by
  cases l with
  | nil => simp [splitNl]
  | cons b rest =>
    simp only [splitNl]
    by_cases hb : b = 10
    · simp [hb]
    · simp only [if_neg hb]
      cases h : splitNl rest <;> simp

/-- Processing one iovec counts every byte of it into `nwritten`: each segment
before a newline contributes its length plus one for the newline, and the
trailing remainder contributes its length. -/
theorem writeChunk_nwritten (l : List Nat) : ∀ cur, (writeChunk l cur).2.1 = l.length := by
  induction l with
  | nil => intro cur; rfl
  | cons b rest ih =>
    intro cur
    unfold writeChunk at *
    rcases hsp : splitNl rest with _ | ⟨s, ss⟩
    · exact absurd hsp (splitNl_ne_nil rest)
    · have h2 := ih []
      rw [hsp] at h2
      by_cases hb : b = 10
      · subst hb
        simp only [splitNl, if_pos rfl, hsp, writeSegs, List.length_nil, List.length_cons]
        omega
      · cases ss with
        | nil =>
          have hs : s.length = rest.length := by simpa [writeSegs] using h2
          simp [splitNl, if_neg hb, hsp, writeSegs, hs]
        | cons s2 ss2 =>
          have h2' : s.length + 1 + (writeSegs (s2 :: ss2) []).2.1 = rest.length := by
            simpa [writeSegs] using h2
          simp only [splitNl, if_neg hb, hsp, writeSegs, List.length_cons]
          omega

/-- C10: a call to `fd_write` on descriptor 1 or 2 with a single iovec of `n`
bytes returns 0 and stores exactly `n` into `*nwritten`, whatever the prior
contents of the line buffer. -/
theorem fd_write_single_iovec_counts (fd : Int) (bs buffer : List Nat)
    (h : fd = 1 ∨ fd = 2) :
    ∃ buf logs, fd_write fd [bs] buffer = .ret ⟨0, buf, bs.length, logs⟩ := by
  unfold fd_write
  rw [if_pos h]
  have hn : (fdWriteGo ([bs].dropWhile List.isEmpty) buffer).2.1 = bs.length := by
    cases bs with
    | nil => simp [fdWriteGo]
    | cons b rest =>
      have hd : [b :: rest].dropWhile List.isEmpty = [b :: rest] := by
        simp [List.dropWhile]
      rw [hd]
      simp [fdWriteGo, writeChunk_nwritten]
  rw [hn]
  exact ⟨_, _, rfl⟩

/-- Witness for C10 on descriptor 2 with the three bytes `a`, newline, `b` and a
nonempty prior buffer. -/
theorem fd_write_single_iovec_counts_witness :
    ((2 : Int) = 1 ∨ (2 : Int) = 2) ∧
      ∃ buf logs, fd_write 2 [[97, 10, 98]] [99] = .ret ⟨0, buf, 3, logs⟩ :=
  ⟨Or.inr rfl, fd_write_single_iovec_counts 2 [97, 10, 98] [99] (Or.inr rfl)⟩

/-! ## Asset encoding (voxel_engine_types/src/asset.rs, voxel_engine_macros/src/lib.rs) -/

/-- Rust enum `ImageFormat`. `asset.rs` declares `Png`; the encoder in
`voxel_engine_macros` also refers to a `Jpeg` variant for `jpg`/`jpeg` files,
so both constructors are modelled. -/
inductive ImageFormat where
  | Png
  | Jpeg
deriving DecidableEq, Repr

/-- Rust enum `Asset`: raw image bytes with a format, or a text document (the
decoded text is modelled as its list of code points). -/
inductive Asset where
  | Image (data : List Nat) (format : ImageFormat)
  | Text (value : List Nat)
deriving DecidableEq, Repr

/-- Error type standing for `WassetError`; the encoder only builds it through
`WassetError::from_serialize` when UTF-8 decoding fails. -/
inductive WassetError where
  | serialize
deriving DecidableEq, Repr

/-- Validating UTF-8 decoder, the semantics of Rust `String::from_utf8`:
yields the decoded code points, or `none` on any ill-formed sequence
(stray continuation, overlong form, surrogate, out-of-range, truncation). -/
def utf8Decode : List Nat → Option (List Nat)
  | [] => some []
  | b :: rest =>
    if b < 0x80 then
      (utf8Decode rest).map (b :: ·)
    else if b < 0xC2 then
      none
    else if b < 0xE0 then
      match rest with
      | b1 :: rest2 =>
        if 0x80 ≤ b1 ∧ b1 < 0xC0 then
          (utf8Decode rest2).map (((b - 0xC0) * 0x40 + (b1 - 0x80)) :: ·)
        else none
      | [] => none
    else if b < 0xF0 then
      match rest with
      | b1 :: b2 :: rest2 =>
        if 0x80 ≤ b1 ∧ b1 < 0xC0 ∧ 0x80 ≤ b2 ∧ b2 < 0xC0 ∧
            0x800 ≤ (b - 0xE0) * 0x1000 + (b1 - 0x80) * 0x40 + (b2 - 0x80) ∧
            ¬ (0xD800 ≤ (b - 0xE0) * 0x1000 + (b1 - 0x80) * 0x40 + (b2 - 0x80) ∧
               (b - 0xE0) * 0x1000 + (b1 - 0x80) * 0x40 + (b2 - 0x80) < 0xE000) then
          (utf8Decode rest2).map
            (((b - 0xE0) * 0x1000 + (b1 - 0x80) * 0x40 + (b2 - 0x80)) :: ·)
        else none
      | _ => none
    else if b < 0xF5 then
      match rest with
      | b1 :: b2 :: b3 :: rest2 =>
        if 0x80 ≤ b1 ∧ b1 < 0xC0 ∧ 0x80 ≤ b2 ∧ b2 < 0xC0 ∧ 0x80 ≤ b3 ∧ b3 < 0xC0 ∧
            0x10000 ≤ (b - 0xF0) * 0x40000 + (b1 - 0x80) * 0x1000 +
              (b2 - 0x80) * 0x40 + (b3 - 0x80) ∧
            (b - 0xF0) * 0x40000 + (b1 - 0x80) * 0x1000 +
              (b2 - 0x80) * 0x40 + (b3 - 0x80) < 0x110000 then
          (utf8Decode rest2).map
            (((b - 0xF0) * 0x40000 + (b1 - 0x80) * 0x1000 +
              (b2 - 0x80) * 0x40 + (b3 - 0x80)) :: ·)
        else none
      | _ => none
    else none

/-- Rust `VoxelAssetEncoder::encode` (voxel_engine_macros/src/lib.rs): maps a
file extension and raw bytes to `Ok(Some(asset))` for recognized extensions,
`Ok(None)` for unrecognized ones, and `Err` when a text asset is not UTF-8. -/
def encode (extension : String) (data : List Nat) : Except WassetError (Option Asset) :=
  match extension with
  | "jpg" | "jpeg" => .ok (some (.Image data .Jpeg))
  | "png" => .ok (some (.Image data .Png))
  | "toml" | "txt" =>
    match utf8Decode data with
    | some value => .ok (some (.Text value))
    | none => .error .serialize
  | _ => .ok none

/-- Modelled from the spec: the directory walk and identifier emission of the
external `wasset::include_assets` machinery, which is not part of this
repository. Per the spec it "walks a directory tree and emits compile-time
identifiers for each file", "passing through unrecognized extensions as no
asset rather than failing the build": each file is fed to the encoder, every
`Ok(Some(asset))` receives the next fresh identifier, every `Ok(None)` is
skipped, and an encoder error fails the build. -/
def include_assets_walk (next : Nat) :
    List (String × List Nat) → Except WassetError (List (Nat × Asset))
  | [] => .ok []
  | (ext, data) :: rest =>
    match encode ext data with
    | .error e => .error e
    | .ok none => include_assets_walk next rest
    | .ok (some a) => (include_assets_walk (next + 1) rest).map (fun tail => (next, a) :: tail)

/-- Modelled from the spec: asset embedding of a directory, listed as
(extension, contents) pairs, starting from the first fresh identifier. -/
def include_assets (files : List (String × List Nat)) :
    Except WassetError (List (Nat × Asset)) :=
  include_assets_walk 0 files

/-- C5: embedding a directory of one `.png`, one `.toml` (with UTF-8 contents,
decoded as `v`) and one `.xyz` file yields exactly two addressable asset
identifiers — the `.png` as an `Image` asset and the `.toml` as a `Text`
asset — and the encoder returns no asset for the unrecognized `.xyz`
extension instead of failing. -/
theorem include_assets_two_ids (d1 d2 d3 v : List Nat) (h : utf8Decode d2 = some v) :
    include_assets [("png", d1), ("toml", d2), ("xyz", d3)] =
      .ok [(0, Asset.Image d1 ImageFormat.Png), (1, Asset.Text v)] ∧
    encode "xyz" d3 = .ok none := by
  constructor
  · simp [include_assets, include_assets_walk, encode, h, Except.map]
  · rfl

/-- Witness for C5 with one-byte images and the three-byte ASCII text `a=1`. -/
theorem include_assets_two_ids_witness :
    utf8Decode [97, 61, 49] = some [97, 61, 49] ∧
      (include_assets [("png", [0]), ("toml", [97, 61, 49]), ("xyz", [1])] =
        .ok [(0, Asset.Image [0] ImageFormat.Png), (1, Asset.Text [97, 61, 49])] ∧
      encode "xyz" [1] = .ok none) :=
  ⟨rfl, include_assets_two_ids [0] [97, 61, 49] [1] [97, 61, 49] rfl⟩
